import Mathlib

/-!
Shallow embedding of `net/rpmsg/rpmsg_sockif.c` (NuttX RPMsg socket
transport): connection state, credit-based flow control, the inbound
DATA dispatch, the send and receive paths, the server-side name-service
bind, accept, and getsockopt.  Machine `uint32_t` arithmetic is modelled
on `Nat` with explicit reduction modulo `2^32`.
-/

/-- Modulus of the C `uint32_t` arithmetic used by the flow-control counters. -/
def u32max : Nat := 4294967296

/-- C `uint32_t` subtraction `a - b` (wrapping), for `a b < u32max`. -/
def sub32 (a b : Nat) : Nat := (a + u32max - b) % u32max

/- Errno values (NuttX `errno.h`, same numbering as Linux). -/

def EINTR : Int := 4
def EAGAIN : Int := 11
def EINVAL : Int := 22
def EFBIG : Int := 27
def ENOPROTOOPT : Int := 92
def ECONNRESET : Int := 104
def EISCONN : Int := 106
def ENOTCONN : Int := 107
def ETIMEDOUT : Int := 110
def EINPROGRESS : Int := 115
def ECANCELED : Int := 125

/-- Constant `RPMSG_SOCKET_CMD_SYNC`. -/
def RPMSG_SOCKET_CMD_SYNC : Nat := 1

/-- Constant `RPMSG_SOCKET_CMD_DATA`. -/
def RPMSG_SOCKET_CMD_DATA : Nat := 2

/-- Value of `sizeof(struct rpmsg_socket_data_s)`: three packed `uint32_t` fields
(`cmd`, `pos`, `len`) followed by a zero-length `data[]` array. -/
def sizeof_data_s : Nat := 12

/-- Value of `sizeof(uint32_t)`. -/
def sizeof_u32 : Nat := 4

/-- Peer credentials `struct ucred` received in the SYNC frame. -/
structure Ucred where
  pid : Nat
  uid : Nat
  gid : Nat
deriving DecidableEq, Repr

/-- Value of `sizeof(struct ucred)`: three 32-bit fields. -/
def sizeof_ucred : Nat := 12

/-- Constant `SOL_SOCKET`. -/
def SOL_SOCKET : Nat := 1

/-- Constant `SO_PEERCRED`. -/
def SO_PEERCRED : Nat := 17

/-- The state of `struct rpmsg_socket_conn_s` relevant to the claims.
Booleans model the socket flags (`_SS_ISBOUND` / `_SS_ISCONNECTED` /
`_SS_ISLISTENING` / `_SS_ISNONBLOCK`), `eptRdev` models
`conn->ept.rdev != NULL`, the semaphores are modelled by their counts,
and the circular receive buffer by its byte content plus its capacity
(`circbuf_size`). -/
structure Conn where
  unbind : Bool
  eptRdev : Bool
  bound : Bool
  connected : Bool
  listening : Bool
  nonblock : Bool
  backlog : Int
  cred : Ucred
  recvbuf : List Nat
  recvbufSize : Nat
  sendsem : Nat
  recvsem : Nat
  sendsize : Nat
  sendpos : Nat
  ackpos : Nat
  recvpos : Nat
  lastpos : Nat
deriving DecidableEq, Repr

/-- A DATA frame as put on the wire: header fields plus the number of
payload bytes that follow the header (for datagrams this includes the
4-byte length word written in front of the user data). -/
structure DataMsg where
  cmd : Nat
  pos : Nat
  len : Nat
  payloadLen : Nat
deriving DecidableEq, Repr

/-- Helper `rpmsg_socket_post`: post the semaphore only if its count is `< 1`
(edge-to-level saturation). -/
def rpmsg_socket_post (sem : Nat) : Nat :=
  if sem < 1 then sem + 1 else sem

/-- Helper `rpmsg_socket_get_space`: `conn->sendsize - (conn->sendpos - conn->ackpos)`
in `uint32_t` arithmetic. -/
def rpmsg_socket_get_space (conn : Conn) : Nat :=
  sub32 conn.sendsize (sub32 conn.sendpos conn.ackpos)

/-- Ack helper `rpmsg_socket_wakeup`: if the endpoint is alive, compute
`space = recvpos - lastpos` (u32) and, when it exceeds half the receive
buffer capacity, advance `lastpos` to `recvpos` and emit a standalone
zero-length DATA frame carrying `pos = recvpos`. -/
def rpmsg_socket_wakeup (conn : Conn) : Conn × Option DataMsg :=
  if conn.eptRdev = false ∨ conn.unbind = true then (conn, none)
  else
    let space := sub32 conn.recvpos conn.lastpos
    if space > conn.recvbufSize / 2 then
      ({ conn with lastpos := conn.recvpos },
       some { cmd := RPMSG_SOCKET_CMD_DATA, pos := conn.recvpos, len := 0,
              payloadLen := 0 })
    else (conn, none)

/-- The `conn->ackpos = msg->pos` update performed by the DATA branch of
`rpmsg_socket_ept_cb` under the send lock. -/
def ept_cb_set_ackpos (conn : Conn) (pos : Nat) : Conn :=
  { conn with ackpos := pos }

/-- The `conn->sendpos += block` advance performed (under the send lock)
by both send paths, in `uint32_t` arithmetic. -/
def send_advance (conn : Conn) (block : Nat) : Conn :=
  { conn with sendpos := (conn.sendpos + block) % u32max }

/-- One flow-control transition of a connection's sender-side counters:
either a send path advances `sendpos` by a block bounded by the current
send space (`rpmsg_socket_send_continuous` clamps the block with
`MIN(len - written, rpmsg_socket_get_space(conn))`, and
`rpmsg_socket_send_single` advances by `total - sizeof(*msg)` after
clamping `total` to `space + sizeof(*msg)`), or the inbound DATA
dispatch stores a peer acknowledgement.  A peer that follows the wire
protocol only acknowledges bytes that were actually sent to it, so the
new `ackpos` lies between the current `ackpos` and `sendpos` on the u32
circle: `pos = ackpos + d` for some `d ≤ sendpos - ackpos`. -/
inductive FlowStep : Conn → Conn → Prop where
  | send (conn : Conn) (block : Nat)
      (hblock : block ≤ rpmsg_socket_get_space conn) :
      FlowStep conn (send_advance conn block)
  | ack (conn : Conn) (d : Nat)
      (hd : d ≤ sub32 conn.sendpos conn.ackpos) :
      FlowStep conn (ept_cb_set_ackpos conn ((conn.ackpos + d) % u32max))

/-- Sender-side counters at connection setup: nothing sent, nothing
acknowledged, and a peer-advertised window that fits in `uint32_t`
(the SYNC frame carries it as a `uint32_t`). -/
def FlowInit (c : Conn) : Prop :=
  c.sendpos = 0 ∧ c.ackpos = 0 ∧ c.sendsize < u32max

/-- The flow-control invariant: the counters are `uint32_t` values and
the in-flight byte count `sendpos - ackpos` (u32) never exceeds the
peer's advertised window. -/
def FlowInv (c : Conn) : Prop :=
  c.sendpos < u32max ∧ c.ackpos < u32max ∧ c.sendsize < u32max ∧
    sub32 c.sendpos c.ackpos ≤ c.sendsize

theorem sub32_lt (a b : Nat) : sub32 a b < u32max := by
  unfold sub32 u32max
  omega

theorem sub32_self (a : Nat) : sub32 a a = 0 := by
  unfold sub32
  unfold u32max
  omega

theorem sub32_of_le (x y : Nat) (hyx : y ≤ x) (hx : x < u32max) :
    sub32 x y = x - y := by
  unfold sub32 at *
  unfold u32max at *
  omega

theorem sub32_add_right (p a k : Nat) (hp : p < u32max) (ha : a < u32max)
    (hk : sub32 p a + k < u32max) :
    sub32 ((p + k) % u32max) a = sub32 p a + k := by
  unfold sub32 at *
  unfold u32max at *
  omega

theorem sub32_ack (p a d : Nat) (hp : p < u32max) (ha : a < u32max)
    (hd : d ≤ sub32 p a) :
    sub32 p ((a + d) % u32max) = sub32 p a - d := by
  unfold sub32 at *
  unfold u32max at *
  omega

theorem flowInv_preserved {c c' : Conn} (hinv : FlowInv c)
    (hstep : FlowStep c c') : FlowInv c' := by
  obtain ⟨hp, ha, hs, hdiff⟩ := hinv
  cases hstep with
  | send block hblock =>
      have hspace : rpmsg_socket_get_space c =
          c.sendsize - sub32 c.sendpos c.ackpos := by
        unfold rpmsg_socket_get_space
        exact sub32_of_le _ _ hdiff hs
      have hfit : sub32 c.sendpos c.ackpos + block < u32max := by
        have : block ≤ c.sendsize - sub32 c.sendpos c.ackpos := by
          rw [hspace] at hblock; exact hblock
        omega
      refine ⟨?_, ha, hs, ?_⟩
      · show (c.sendpos + block) % u32max < u32max
        have : 0 < u32max := by unfold u32max; omega
        exact Nat.mod_lt _ this
      · show sub32 ((c.sendpos + block) % u32max) c.ackpos ≤ c.sendsize
        rw [sub32_add_right c.sendpos c.ackpos block hp ha hfit]
        have : block ≤ c.sendsize - sub32 c.sendpos c.ackpos := by
          rw [hspace] at hblock; exact hblock
        omega
  | ack d hd =>
      refine ⟨hp, ?_, hs, ?_⟩
      · show (c.ackpos + d) % u32max < u32max
        have : 0 < u32max := by unfold u32max; omega
        exact Nat.mod_lt _ this
      · show sub32 c.sendpos ((c.ackpos + d) % u32max) ≤ c.sendsize
        rw [sub32_ack c.sendpos c.ackpos d hp ha hd]
        omega

/-- A concrete connection used to instantiate theorems on sample inputs. -/
def sampleConn : Conn :=
  { unbind := false, eptRdev := true, bound := false, connected := true,
    listening := false, nonblock := false, backlog := 0,
    cred := { pid := 1, uid := 2, gid := 3 }, recvbuf := [],
    recvbufSize := 4096, sendsem := 0, recvsem := 0, sendsize := 4096,
    sendpos := 0, ackpos := 0, recvpos := 0, lastpos := 0 }

/-- C1: on every state reachable (from a freshly synchronised connection)
through the send-path `sendpos` advances and the inbound-DATA `ackpos`
updates of a protocol-following peer, `0 ≤ sendpos − ackpos ≤ sendsize`
holds (the lower bound is inherent to the `Nat`-valued u32 difference)
and `rpmsg_socket_get_space` computes exactly
`sendsize − (sendpos − ackpos)`. -/
theorem flow_invariant_reachable (c0 c : Conn) (hinit : FlowInit c0)
    (hreach : Relation.ReflTransGen FlowStep c0 c) :
    sub32 c.sendpos c.ackpos ≤ c.sendsize ∧
      rpmsg_socket_get_space c = c.sendsize - sub32 c.sendpos c.ackpos := by
  have hinv : FlowInv c := by
    induction hreach with
    | refl =>
        obtain ⟨h1, h2, h3⟩ := hinit
        refine ⟨?_, ?_, h3, ?_⟩
        · rw [h1]; unfold u32max; omega
        · rw [h2]; unfold u32max; omega
        · rw [h1, h2, sub32_self]; omega
    | tail hab hbc ih => exact flowInv_preserved ih hbc
  obtain ⟨hp, ha, hs, hdiff⟩ := hinv
  refine ⟨hdiff, ?_⟩
  unfold rpmsg_socket_get_space
  exact sub32_of_le _ _ hdiff hs

/-- Witness for C1 at a concrete initial state. -/
theorem flow_invariant_reachable_witness :
    sub32 sampleConn.sendpos sampleConn.ackpos ≤ sampleConn.sendsize ∧
      rpmsg_socket_get_space sampleConn
        = sampleConn.sendsize - sub32 sampleConn.sendpos sampleConn.ackpos :=
  flow_invariant_reachable sampleConn sampleConn
    ⟨rfl, rfl, by decide⟩ Relation.ReflTransGen.refl

/-- C2: when the endpoint is alive, the ack helper
`rpmsg_socket_wakeup` (called by `rpmsg_socket_recvmsg` whenever at
least one byte was delivered) emits a standalone zero-length DATA frame
carrying `pos = recvpos` and advances `lastpos` to `recvpos` exactly
when `recvpos − lastpos` exceeds half of the peer's send window (the
peer's `sendsize` equals this side's receive-buffer capacity, advertised
in SYNC); otherwise no frame is sent and the connection is unchanged. -/
theorem wakeup_ack_frame (conn : Conn) (sendsizePeer : Nat)
    (halive : conn.eptRdev = true) (hunbind : conn.unbind = false)
    (hpeer : sendsizePeer = conn.recvbufSize) :
    (((rpmsg_socket_wakeup conn).2
        = some { cmd := RPMSG_SOCKET_CMD_DATA, pos := conn.recvpos,
                 len := 0, payloadLen := 0 }
      ∧ (rpmsg_socket_wakeup conn).1.lastpos = conn.recvpos)
      ↔ sub32 conn.recvpos conn.lastpos > sendsizePeer / 2)
    ∧ (¬ sub32 conn.recvpos conn.lastpos > sendsizePeer / 2 →
        rpmsg_socket_wakeup conn = (conn, none)) := by
  subst hpeer
  unfold rpmsg_socket_wakeup
  rw [halive, hunbind]
  simp only [Bool.true_eq_false, Bool.false_eq_true, or_self, if_false]
  constructor
  · constructor
    · intro h
      by_contra hc
      rw [if_neg hc] at h
      exact Option.noConfusion h.1
    · intro h
      rw [if_pos h]
      exact ⟨rfl, rfl⟩
  · intro h
    rw [if_neg h]

/-- Little-endian byte encoding of a `uint32_t` (the 4-byte datagram
length word written into the circular buffer). -/
def le32 (n : Nat) : List Nat :=
  [n % 256, n / 256 % 256, n / 65536 % 256, n / 16777216 % 256]

/-- Little-endian decoding of four bytes into a `uint32_t`. -/
def decodeLe32 (b0 b1 b2 b3 : Nat) : Nat :=
  b0 + 256 * b1 + 65536 * b2 + 16777216 * b3

theorem decodeLe32_le32 (n : Nat) (h : n < u32max) :
    decodeLe32 (n % 256) (n / 256 % 256) (n / 65536 % 256)
      (n / 16777216 % 256) = n := by
  unfold decodeLe32
  unfold u32max at h
  omega

/-- Result of the datagram branch of `rpmsg_socket_recvmsg` that runs
under the recv lock: the `ssize_t` return value, the bytes copied to
the user buffer, the remaining circular-buffer content, and the updated
`recvpos`. -/
structure DgramRead where
  ret : Int
  delivered : List Nat
  buf : List Nat
  recvpos : Nat
deriving DecidableEq, Repr

/-- The `psock->s_type != SOCK_STREAM` read block of
`rpmsg_socket_recvmsg`: `circbuf_read` a 4-byte length word `datalen`,
then `circbuf_read` `MIN(datalen, len)` bytes into the user buffer,
`circbuf_skip` the unread remainder when `ret > 0 && datalen > ret`, and
advance `recvpos` by `datalen + sizeof(uint32_t)`.  A buffer holding
fewer than 4 bytes would make the source read a partially-written
length word into an uninitialised stack variable; that underdetermined
case is modelled as the empty-buffer outcome (`ret = 0`, nothing
changed), which is the source behaviour for an empty buffer. -/
def rpmsg_socket_recv_dgram (buf : List Nat) (len : Nat) (recvpos : Nat) :
    DgramRead :=
  match buf with
  | b0 :: b1 :: b2 :: b3 :: rest =>
      let datalen := decodeLe32 b0 b1 b2 b3
      let delivered := rest.take (min datalen len)
      let ret := delivered.length
      let rest1 := rest.drop (min datalen len)
      let rest2 := if 0 < ret ∧ ret < datalen
                   then rest1.drop (datalen - ret) else rest1
      { ret := (ret : Int), delivered := delivered, buf := rest2,
        recvpos := (recvpos + datalen + sizeof_u32) % u32max }
  | _ => { ret := 0, delivered := [], buf := buf, recvpos := recvpos }

/-- What this side observes across the blocking wait on `recvsem` in
`rpmsg_socket_recvmsg`: the `net_sem_timedwait` result, the endpoint
flags on wake, and — when the endpoint bridge consumed the published
`recvdata` (direct copy skipping the circular buffer) — the payload of
the frame it copied from; the bridge clamps the copy with
`MIN(conn->recvlen, msg->len)`. -/
structure RecvWait where
  res : Int
  rdev : Bool
  unbind : Bool
  consumed : Option (List Nat)
deriving DecidableEq, Repr

/-- Outcome of `rpmsg_socket_recvmsg`: the `ssize_t` return value, the
final connection state, the bytes delivered to the user buffer, and
the ack frame emitted by `rpmsg_socket_wakeup` (if any). -/
structure RecvResult where
  ret : Int
  conn : Conn
  delivered : List Nat
  frame : Option DataMsg
deriving DecidableEq, Repr

/-- Tail of `rpmsg_socket_recvmsg`: when at least one byte was
delivered, call the ack helper `rpmsg_socket_wakeup` (and copy the peer
address out, not modelled). -/
def recvmsg_finish (conn : Conn) (ret : Int) (delivered : List Nat) :
    RecvResult :=
  if 0 < ret then
    let wk := rpmsg_socket_wakeup conn
    { ret := ret, conn := wk.1, delivered := delivered, frame := wk.2 }
  else { ret := ret, conn := conn, delivered := delivered, frame := none }

/-- The read paths of `rpmsg_socket_recvmsg` executed under the recv
lock: the datagram branch (`rpmsg_socket_recv_dgram`) or the stream
branch (`circbuf_read` of up to `len` bytes, advancing `recvpos` by the
bytes actually read).  Returns `(ret, delivered, conn)`. -/
def recvmsg_read (conn : Conn) (isStream : Bool) (len : Nat) :
    Int × List Nat × Conn :=
  if isStream = false then
    let r := rpmsg_socket_recv_dgram conn.recvbuf len conn.recvpos
    (r.ret, r.delivered, { conn with recvbuf := r.buf, recvpos := r.recvpos })
  else
    let delivered := conn.recvbuf.take len
    ((delivered.length : Int), delivered,
      { conn with recvbuf := conn.recvbuf.drop len,
                  recvpos := (conn.recvpos + delivered.length) % u32max })

/-- The body of `rpmsg_socket_recvmsg` after the connection checks: the
read path under the recv lock, the `ret > 0` fast exit, the EOF exit
when the endpoint is gone, the `EAGAIN` exit for non-blocking sockets,
and the blocking wait on `recvsem` whose concurrent effects are
described by `w` (`w.consumed` models the bridge having copied a frame
payload directly into the published `recvdata`, clamped by
`MIN(conn->recvlen, msg->len)`). -/
def recvmsg_locked (conn : Conn) (isStream : Bool) (len : Nat)
    (dontwait : Bool) (w : RecvWait) : RecvResult :=
  let rd := recvmsg_read conn isStream len
  let ret := rd.1
  let delivered := rd.2.1
  let conn := rd.2.2
  if 0 < ret then recvmsg_finish conn ret delivered
  else if conn.eptRdev = false ∨ conn.unbind = true then
    recvmsg_finish conn 0 delivered
  else if conn.nonblock = true ∨ dontwait = true then
    recvmsg_finish conn (-EAGAIN) delivered
  else
    let conn2 := { conn with eptRdev := w.rdev, unbind := w.unbind }
    let ret2 := if conn2.eptRdev = false ∨ conn2.unbind = true
                then -ECONNRESET else w.res
    match w.consumed with
    | some payload =>
        let direct := payload.take len
        recvmsg_finish conn2 (direct.length : Int) direct
    | none => recvmsg_finish conn2 ret2 delivered

/-- Function `rpmsg_socket_recvmsg`, with the user buffer abstracted to its
length `len` (taken from `msg->msg_iov->iov_base` / `iov_len`): the
implicit connect for bound-but-unconnected datagram sockets (its
outcome `ci` is the `rpmsg_socket_connect_internal` return value and
the connection state it leaves behind), the `EISCONN` check, then the
locked receive body. -/
def rpmsg_socket_recvmsg_core (conn : Conn) (isStream : Bool) (len : Nat)
    (dontwait : Bool) (ci : Int × Conn) (w : RecvWait) : RecvResult :=
  let step : Except (Int × Conn) Conn :=
    if isStream = false ∧ conn.bound = true ∧ conn.connected = false then
      if ci.1 < 0 then Except.error (ci.1, ci.2) else Except.ok ci.2
    else Except.ok conn
  match step with
  | Except.error ec =>
      { ret := ec.1, conn := ec.2, delivered := [], frame := none }
  | Except.ok conn =>
  if conn.connected = false then
    { ret := -EISCONN, conn := conn, delivered := [], frame := none }
  else recvmsg_locked conn isStream len dontwait w

/-- Function `rpmsg_socket_recvmsg` as called with a full `msghdr`: the source
takes the destination buffer and length from `msg->msg_iov->iov_base`
and `msg->msg_iov->iov_len` only — the first scatter entry. -/
def rpmsg_socket_recvmsg (conn : Conn) (isStream : Bool) (iov : List Nat)
    (dontwait : Bool) (ci : Int × Conn) (w : RecvWait) : RecvResult :=
  rpmsg_socket_recvmsg_core conn isStream (iov.headD 0) dontwait ci w

theorem wakeup_fst_recvbuf (conn : Conn) :
    (rpmsg_socket_wakeup conn).1.recvbuf = conn.recvbuf := by
  unfold rpmsg_socket_wakeup
  split
  · rfl
  · dsimp only
    split <;> rfl

theorem wakeup_fst_recvpos (conn : Conn) :
    (rpmsg_socket_wakeup conn).1.recvpos = conn.recvpos := by
  unfold rpmsg_socket_wakeup
  split
  · rfl
  · dsimp only
    split <;> rfl

theorem recv_dgram_spec (dglen userLen recvpos : Nat) (data rest : List Nat)
    (hdata : data.length = dglen) (hdg : 1 ≤ dglen) (hlen : 1 ≤ userLen)
    (hd32 : dglen < u32max) :
    rpmsg_socket_recv_dgram (le32 dglen ++ (data ++ rest)) userLen recvpos =
      { ret := ((min dglen userLen : Nat) : Int),
        delivered := data.take (min dglen userLen),
        buf := rest,
        recvpos := (recvpos + dglen + sizeof_u32) % u32max } := by
  subst hdata
  have hmin : min data.length userLen ≤ data.length := Nat.min_le_left _ _
  have hdec := decodeLe32_le32 data.length hd32
  unfold le32
  unfold rpmsg_socket_recv_dgram
  simp only [List.cons_append, List.nil_append]
  rw [hdec]
  rw [List.take_append_of_le_length hmin, List.drop_append_of_le_length hmin]
  rcases Nat.le_total data.length userLen with hc | hc
  · have hmineq : min data.length userLen = data.length := Nat.min_eq_left hc
    rw [hmineq]
    rw [List.take_length, List.drop_length]
    have hno : ¬ (0 < data.length ∧ data.length < data.length) := by omega
    rw [if_neg hno]
    simp only [List.nil_append]
  · have hmineq : min data.length userLen = userLen := Nat.min_eq_right hc
    rw [hmineq]
    by_cases hEq : userLen = data.length
    · subst hEq
      rw [List.take_length, List.drop_length]
      have hno : ¬ (0 < data.length ∧ data.length < data.length) := by omega
      rw [if_neg hno]
      simp only [List.nil_append]
    · have hlt : userLen < data.length := by omega
      have htl : (data.take userLen).length = userLen := by
        rw [List.length_take]
        omega
      rw [htl]
      have hyes : (0 < userLen ∧ userLen < data.length) := by omega
      rw [if_pos hyes]
      have hdl : (data.drop userLen).length = data.length - userLen :=
        List.length_drop _ _
      rw [← hdl, List.drop_left]

theorem finish_ret (conn : Conn) (ret : Int) (d : List Nat) :
    (recvmsg_finish conn ret d).ret = ret := by
  unfold recvmsg_finish
  split <;> rfl

theorem finish_delivered (conn : Conn) (ret : Int) (d : List Nat) :
    (recvmsg_finish conn ret d).delivered = d := by
  unfold recvmsg_finish
  split <;> rfl

theorem finish_conn_recvbuf (conn : Conn) (ret : Int) (d : List Nat) :
    (recvmsg_finish conn ret d).conn.recvbuf = conn.recvbuf := by
  unfold recvmsg_finish
  split
  · exact wakeup_fst_recvbuf conn
  · rfl

theorem finish_conn_recvpos (conn : Conn) (ret : Int) (d : List Nat) :
    (recvmsg_finish conn ret d).conn.recvpos = conn.recvpos := by
  unfold recvmsg_finish
  split
  · exact wakeup_fst_recvpos conn
  · rfl

theorem recvmsg_core_connected (conn : Conn) (isStream : Bool) (len : Nat)
    (dontwait : Bool) (ci : Int × Conn) (w : RecvWait)
    (hconn : conn.connected = true) :
    rpmsg_socket_recvmsg_core conn isStream len dontwait ci w
      = recvmsg_locked conn isStream len dontwait w := by
  unfold rpmsg_socket_recvmsg_core
  simp [hconn]

theorem recvmsg_read_dgram (conn : Conn) (dglen userLen : Nat)
    (data rest : List Nat)
    (hbuf : conn.recvbuf = le32 dglen ++ (data ++ rest))
    (hdata : data.length = dglen)
    (hdg : 1 ≤ dglen) (hlen : 1 ≤ userLen) (hd32 : dglen < u32max) :
    recvmsg_read conn false userLen =
      (((min dglen userLen : Nat) : Int), data.take (min dglen userLen),
        { conn with recvbuf := rest,
                    recvpos := (conn.recvpos + dglen + sizeof_u32) % u32max }) := by
  unfold recvmsg_read
  rw [if_pos rfl, hbuf,
    recv_dgram_spec dglen userLen conn.recvpos data rest hdata hdg hlen hd32]

theorem recvmsg_locked_pos (conn : Conn) (isStream : Bool) (len : Nat)
    (dontwait : Bool) (w : RecvWait)
    (h : 0 < (recvmsg_read conn isStream len).1) :
    recvmsg_locked conn isStream len dontwait w =
      recvmsg_finish (recvmsg_read conn isStream len).2.2
        (recvmsg_read conn isStream len).1
        (recvmsg_read conn isStream len).2.1 := by
  unfold recvmsg_locked
  rw [if_pos h]

/-- C3 (amended): for a connected datagram socket whose circular buffer
holds a datagram of length `dglen ≥ 1` behind its 4-byte length word,
`recvmsg` with a user buffer of length `user_len ≥ 1` delivers
`min(dglen, user_len)` bytes — a prefix of the datagram — discards the
rest of the datagram from the buffer, and advances `recvpos` by
`dglen + 4`.  (The `dglen = 0` and `user_len = 0` edge cases escape to
the blocking path, and with `user_len = 0` the unread bytes are not
discarded; see the counterexample.) -/
theorem recvmsg_dgram_delivery (conn : Conn) (dglen userLen : Nat)
    (data rest : List Nat) (dontwait : Bool) (ci : Int × Conn) (w : RecvWait)
    (hconn : conn.connected = true)
    (hbuf : conn.recvbuf = le32 dglen ++ (data ++ rest))
    (hdata : data.length = dglen)
    (hdg : 1 ≤ dglen) (hlen : 1 ≤ userLen) (hd32 : dglen < u32max)
    (hpos : conn.recvpos + dglen + sizeof_u32 < u32max) :
    (rpmsg_socket_recvmsg_core conn false userLen dontwait ci w).ret
        = ((min dglen userLen : Nat) : Int)
    ∧ (rpmsg_socket_recvmsg_core conn false userLen dontwait ci w).delivered
        = data.take (min dglen userLen)
    ∧ (rpmsg_socket_recvmsg_core conn false userLen dontwait ci w).conn.recvbuf
        = rest
    ∧ (rpmsg_socket_recvmsg_core conn false userLen dontwait ci w).conn.recvpos
        = conn.recvpos + dglen + sizeof_u32 := by
  have hread := recvmsg_read_dgram conn dglen userLen data rest
    hbuf hdata hdg hlen hd32
  have h0 : (0 : Int) < ((min dglen userLen : Nat) : Int) := by omega
  rw [recvmsg_core_connected conn false userLen dontwait ci w hconn]
  rw [recvmsg_locked_pos conn false userLen dontwait w (by rw [hread]; exact h0)]
  rw [hread]
  rw [finish_ret, finish_delivered, finish_conn_recvbuf, finish_conn_recvpos]
  refine ⟨rfl, rfl, rfl, ?_⟩
  exact Nat.mod_eq_of_lt hpos

/-- A connected datagram connection holding one 4-byte datagram. -/
def connC3 : Conn :=
  { sampleConn with recvbuf := le32 4 ++ ([10, 11, 12, 13] ++ []) }

/-- Witness for C3 (amended) on a concrete 4-byte datagram read with a
2-byte user buffer. -/
theorem recvmsg_dgram_delivery_witness :
    (rpmsg_socket_recvmsg_core connC3 false 2 false (0, sampleConn)
        ⟨0, true, false, none⟩).ret = ((min 4 2 : Nat) : Int)
    ∧ (rpmsg_socket_recvmsg_core connC3 false 2 false (0, sampleConn)
        ⟨0, true, false, none⟩).delivered = [10, 11, 12, 13].take (min 4 2)
    ∧ (rpmsg_socket_recvmsg_core connC3 false 2 false (0, sampleConn)
        ⟨0, true, false, none⟩).conn.recvbuf = []
    ∧ (rpmsg_socket_recvmsg_core connC3 false 2 false (0, sampleConn)
        ⟨0, true, false, none⟩).conn.recvpos
        = connC3.recvpos + 4 + sizeof_u32 :=
  recvmsg_dgram_delivery connC3 4 2 [10, 11, 12, 13] [] false
    (0, sampleConn) ⟨0, true, false, none⟩ rfl rfl rfl (by decide) (by decide)
    (by decide) (by decide)

/-- C3 counterexample: with a 1-byte datagram buffered and a user buffer
of length 0, the source advances `recvpos` past the datagram but does
not discard its byte from the circular buffer (the skip is guarded by
`ret > 0`), contradicting the claim that the remaining
`dglen − user_len` bytes are discarded in every case. -/
theorem recvmsg_dgram_counterexample :
    (rpmsg_socket_recvmsg_core { sampleConn with recvbuf := le32 1 ++ [7] }
        false 0 true (0, sampleConn) ⟨0, true, false, none⟩).conn.recvbuf
        = [7]
    ∧ (rpmsg_socket_recvmsg_core { sampleConn with recvbuf := le32 1 ++ [7] }
        false 0 true (0, sampleConn) ⟨0, true, false, none⟩).conn.recvpos = 5
    ∧ ([7] : List Nat) ≠ [] := by
  refine ⟨by decide, by decide, by decide⟩

/-- C5: recvmsg on a socket that is not connected — a stream socket, an
unbound datagram socket, or a bound datagram socket whose implicit
connect returned without error yet left the socket unconnected — fails
with `EISCONN` (sic: the source's check reads backwards, returning
`EISCONN` where `ENOTCONN` would be conventional, and the spec preserves
that behaviour). -/
theorem recvmsg_unconnected_eisconn (conn : Conn) (len : Nat)
    (dontwait : Bool) (ci : Int × Conn) (w : RecvWait) :
    (conn.connected = false →
      (rpmsg_socket_recvmsg_core conn true len dontwait ci w).ret = -EISCONN)
    ∧ (conn.connected = false → conn.bound = false →
      (rpmsg_socket_recvmsg_core conn false len dontwait ci w).ret = -EISCONN)
    ∧ (conn.connected = false → conn.bound = true → 0 ≤ ci.1 →
        ci.2.connected = false →
      (rpmsg_socket_recvmsg_core conn false len dontwait ci w).ret
        = -EISCONN) := by
  refine ⟨?_, ?_, ?_⟩
  · intro h
    unfold rpmsg_socket_recvmsg_core
    simp [h]
  · intro h hb
    unfold rpmsg_socket_recvmsg_core
    simp [h, hb]
  · intro h hb hci hcic
    unfold rpmsg_socket_recvmsg_core
    simp [h, hb, hcic, not_lt.mpr hci]

/-- Witness for C5 on a concrete unconnected stream socket. -/
theorem recvmsg_unconnected_eisconn_witness :
    (rpmsg_socket_recvmsg_core { sampleConn with connected := false } true 4
      false (0, sampleConn) ⟨0, true, false, none⟩).ret = -EISCONN :=
  (recvmsg_unconnected_eisconn { sampleConn with connected := false } 4 false
    (0, sampleConn) ⟨0, true, false, none⟩).1 rfl

/-- C8: on a connected stream socket with an empty receive buffer whose
endpoint has been destroyed or unbound, recvmsg returns 0 (end of
file), not an error and without blocking. -/
theorem recvmsg_peer_closed_eof (conn : Conn) (len : Nat) (dontwait : Bool)
    (ci : Int × Conn) (w : RecvWait)
    (hconn : conn.connected = true)
    (hempty : conn.recvbuf = [])
    (hdead : conn.eptRdev = false ∨ conn.unbind = true) :
    (rpmsg_socket_recvmsg_core conn true len dontwait ci w).ret = 0 := by
  rw [recvmsg_core_connected conn true len dontwait ci w hconn]
  rcases hdead with h | h <;>
    simp [recvmsg_locked, recvmsg_read, recvmsg_finish, hempty, h]

/-- Witness for C8 on a concrete connection with a destroyed endpoint. -/
theorem recvmsg_peer_closed_eof_witness :
    (rpmsg_socket_recvmsg_core { sampleConn with eptRdev := false } true 8
      false (0, sampleConn) ⟨0, true, false, none⟩).ret = 0 :=
  recvmsg_peer_closed_eof { sampleConn with eptRdev := false } 8 false
    (0, sampleConn) ⟨0, true, false, none⟩ rfl rfl (Or.inl rfl)

theorem recv_dgram_delivered_le (buf : List Nat) (len recvpos : Nat) :
    (rpmsg_socket_recv_dgram buf len recvpos).delivered.length ≤ len := by
  cases buf with
  | nil => simp [rpmsg_socket_recv_dgram]
  | cons b0 t0 =>
    cases t0 with
    | nil => simp [rpmsg_socket_recv_dgram]
    | cons b1 t1 =>
      cases t1 with
      | nil => simp [rpmsg_socket_recv_dgram]
      | cons b2 t2 =>
        cases t2 with
        | nil => simp [rpmsg_socket_recv_dgram]
        | cons b3 rest =>
          simp [rpmsg_socket_recv_dgram, List.length_take]

theorem recvmsg_read_delivered_le (conn : Conn) (isStream : Bool)
    (len : Nat) : (recvmsg_read conn isStream len).2.1.length ≤ len := by
  unfold recvmsg_read
  split
  · exact recv_dgram_delivered_le conn.recvbuf len conn.recvpos
  · simp only [List.length_take]
    omega

theorem recvmsg_locked_delivered_le (conn : Conn) (isStream : Bool)
    (len : Nat) (dontwait : Bool) (w : RecvWait) :
    (recvmsg_locked conn isStream len dontwait w).delivered.length
      ≤ len := by
  have hread := recvmsg_read_delivered_le conn isStream len
  obtain ⟨res, rdev, unb, consumed⟩ := w
  unfold recvmsg_locked
  dsimp only
  split
  · rw [finish_delivered]
    exact hread
  · split
    · rw [finish_delivered]
      exact hread
    · split
      · rw [finish_delivered]
        exact hread
      · cases consumed with
        | some payload =>
            dsimp only
            rw [finish_delivered]
            simp only [List.length_take]
            omega
        | none =>
            dsimp only
            rw [finish_delivered]
            exact hread

theorem recvmsg_core_delivered_le (conn : Conn) (isStream : Bool)
    (len : Nat) (dontwait : Bool) (ci : Int × Conn) (w : RecvWait) :
    (rpmsg_socket_recvmsg_core conn isStream len dontwait ci w).delivered.length
      ≤ len := by
  unfold rpmsg_socket_recvmsg_core
  dsimp only
  split
  · simp
  · split
    · simp
    · exact recvmsg_locked_delivered_le _ isStream len dontwait w

/-- C9: recvmsg takes the destination buffer and its length from
`msg->msg_iov[0]` alone — the whole outcome depends only on the first
scatter entry, `msg_iovlen` is never consulted, and at most
`msg_iov[0].iov_len` bytes are delivered per call. -/
theorem recvmsg_iov_head_only (conn : Conn) (isStream : Bool)
    (iov1 iov2 : List Nat) (dontwait : Bool) (ci : Int × Conn)
    (w : RecvWait) (h : iov1.headD 0 = iov2.headD 0) :
    rpmsg_socket_recvmsg conn isStream iov1 dontwait ci w
      = rpmsg_socket_recvmsg conn isStream iov2 dontwait ci w
    ∧ (rpmsg_socket_recvmsg conn isStream iov1 dontwait ci w).delivered.length
        ≤ iov1.headD 0 := by
  constructor
  · unfold rpmsg_socket_recvmsg
    rw [h]
  · exact recvmsg_core_delivered_le conn isStream (iov1.headD 0) dontwait ci w

/-- Witness for C9 on two concrete scatter lists sharing their first
entry. -/
theorem recvmsg_iov_head_only_witness :
    rpmsg_socket_recvmsg sampleConn true [3, 5] false (0, sampleConn)
        ⟨0, true, false, none⟩
      = rpmsg_socket_recvmsg sampleConn true [3] false (0, sampleConn)
        ⟨0, true, false, none⟩
    ∧ (rpmsg_socket_recvmsg sampleConn true [3, 5] false (0, sampleConn)
        ⟨0, true, false, none⟩).delivered.length ≤ [3, 5].headD 0 :=
  recvmsg_iov_head_only sampleConn true [3, 5] [3] false (0, sampleConn)
    ⟨0, true, false, none⟩ rfl

/-- Witness for C2: with 3000 of 4096 window bytes consumed the helper
emits the standalone ack frame and advances `lastpos`. -/
theorem wakeup_ack_frame_witness :
    (rpmsg_socket_wakeup { sampleConn with recvpos := 3000 }).2
      = some { cmd := RPMSG_SOCKET_CMD_DATA, pos := 3000, len := 0,
               payloadLen := 0 }
    ∧ (rpmsg_socket_wakeup { sampleConn with recvpos := 3000 }).1.lastpos
      = 3000 :=
  ((wakeup_ack_frame { sampleConn with recvpos := 3000 } 4096
      rfl rfl rfl).1).mpr (by decide)

/-- Helper `rpmsg_socket_get_iovlen`: sum of the `iov_len` fields, accumulated
in a `uint32_t`. -/
def rpmsg_socket_get_iovlen (iov : List Nat) : Nat :=
  iov.foldl (fun acc l => (acc + l) % u32max) 0

/-- What the sender observes across one blocking wait on `sendsem` in
`rpmsg_socket_send_single`: the `net_sem_timedwait` result and the
connection fields that the endpoint bridge may have changed
concurrently. -/
structure SendWait where
  res : Int
  ackpos : Nat
  rdev : Bool
  unbind : Bool
deriving DecidableEq, Repr

/-- The `while (1)` credit-wait loop of `rpmsg_socket_send_single`:
break when `space >= total - sizeof(*msg)`; otherwise `EAGAIN` for
non-blocking sockets, or wait on `sendsem` (substituting
`ECONNRESET` when the endpoint died) and re-check.  The oracle list
`evs` supplies one entry per wait; an exhausted oracle models a wait
that never gets signalled within the timeout. -/
def send_single_wait : Conn → Nat → Bool → List SendWait →
    Except Int Conn
  | conn, need, nonblock, [] =>
      if need ≤ rpmsg_socket_get_space conn then Except.ok conn
      else if nonblock then Except.error (-EAGAIN)
      else if conn.eptRdev = false ∨ conn.unbind = true then
        Except.error (-ECONNRESET)
      else Except.error (-ETIMEDOUT)
  | conn, need, nonblock, ev :: rest =>
      if need ≤ rpmsg_socket_get_space conn then Except.ok conn
      else if nonblock then Except.error (-EAGAIN)
      else if ev.rdev = false ∨ ev.unbind = true then
        Except.error (-ECONNRESET)
      else if ev.res < 0 then Except.error ev.res
      else send_single_wait { conn with ackpos := ev.ackpos, eptRdev := ev.rdev, unbind := ev.unbind } need nonblock rest

/-- Function `rpmsg_socket_send_single` (the datagram send path): reject with
`EFBIG` when `total = iovlen + sizeof(*msg) + sizeof(uint32_t)` exceeds
the peer's advertised window `sendsize`; wait for
`space >= total - sizeof(*msg)`; acquire a TX buffer of size `ipcsize`
(`txBufOk = false` models `rpmsg_get_tx_payload_buffer` failing, which
the source maps to `EINVAL`); clamp `total` to
`MIN(total, space + sizeof(*msg), ipcsize)`; write the 4-byte length
word and the payload; advance `lastpos` and `sendpos`; transmit
(`txRes` is the `rpmsg_sendto_nocopy` result — on failure the source
releases the TX buffer but does not roll back `sendpos`).  Returns the
`ssize_t` result, the final connection state, and the frame sent. -/
def rpmsg_socket_send_single (conn : Conn) (iov : List Nat)
    (nonblock : Bool) (evs : List SendWait) (ipcsize : Nat)
    (txBufOk : Bool) (txRes : Int) : Int × Conn × Option DataMsg :=
  let len := rpmsg_socket_get_iovlen iov
  let total := (len + sizeof_data_s + sizeof_u32) % u32max
  if total > conn.sendsize then (-EFBIG, conn, none)
  else
    match send_single_wait conn (sub32 total sizeof_data_s) nonblock evs with
    | Except.error e => (e, conn, none)
    | Except.ok conn =>
        if txBufOk = false then (-EINVAL, conn, none)
        else
          let space := rpmsg_socket_get_space conn
          let total1 := min total (space + sizeof_data_s)
          let total2 := min total1 ipcsize
          let len1 := sub32 (sub32 total2 sizeof_data_s) sizeof_u32
          let msg : DataMsg := { cmd := RPMSG_SOCKET_CMD_DATA,
                                 pos := conn.recvpos, len := len1,
                                 payloadLen := len1 + sizeof_u32 }
          let conn1 : Conn :=
            { conn with lastpos := conn.recvpos,
                        sendpos := (conn.sendpos + len1 + sizeof_u32)
                                     % u32max }
          if txRes < 0 then (txRes, conn1, none)
          else (if txRes > 0 then (len1 : Int) else txRes, conn1, some msg)

theorem foldl_mod_eq_sum (iov : List Nat) :
    ∀ acc, acc + iov.sum < u32max →
      iov.foldl (fun a l => (a + l) % u32max) acc = acc + iov.sum := by
  induction iov with
  | nil =>
      intro acc h
      simp
  | cons x xs ih =>
      intro acc h
      simp only [List.foldl_cons, List.sum_cons] at *
      rw [Nat.mod_eq_of_lt (by omega)]
      rw [ih (acc + x) (by omega)]
      omega

theorem get_iovlen_eq_sum (iov : List Nat) (h : iov.sum < u32max) :
    rpmsg_socket_get_iovlen iov = iov.sum := by
  unfold rpmsg_socket_get_iovlen
  rw [foldl_mod_eq_sum iov 0 (by omega)]
  omega

theorem send_single_wait_error_mem (need : Nat) (nonblock : Bool)
    (evs : List SendWait) :
    ∀ (conn : Conn) (e : Int),
      send_single_wait conn need nonblock evs = Except.error e →
      e = -EAGAIN ∨ e = -ECONNRESET ∨ e = -ETIMEDOUT
        ∨ ∃ ev ∈ evs, e = ev.res := by
  induction evs with
  | nil =>
      intro conn e h
      unfold send_single_wait at h
      split at h
      · exact absurd h (by simp)
      · split at h
        · simp only [Except.error.injEq] at h
          exact Or.inl h.symm
        · split at h
          · simp only [Except.error.injEq] at h
            exact Or.inr (Or.inl h.symm)
          · simp only [Except.error.injEq] at h
            exact Or.inr (Or.inr (Or.inl h.symm))
  | cons ev rest ih =>
      intro conn e h
      unfold send_single_wait at h
      split at h
      · exact absurd h (by simp)
      · split at h
        · simp only [Except.error.injEq] at h
          exact Or.inl h.symm
        · split at h
          · simp only [Except.error.injEq] at h
            exact Or.inr (Or.inl h.symm)
          · split at h
            · simp only [Except.error.injEq] at h
              exact Or.inr (Or.inr (Or.inr ⟨ev, by simp, h.symm⟩))
            · rcases ih _ e h with h1 | h1 | h1 | ⟨ev1, hmem, h1⟩
              · exact Or.inl h1
              · exact Or.inr (Or.inl h1)
              · exact Or.inr (Or.inr (Or.inl h1))
              · exact Or.inr (Or.inr (Or.inr
                  ⟨ev1, List.mem_cons_of_mem _ hmem, h1⟩))

/-- C4: for a connected datagram socket, `rpmsg_socket_send_single`
fails with `EFBIG` exactly when the total scatter length plus the DATA
header plus the 4-byte length word exceeds the peer's advertised window
`sendsize`; in that case it returns before transmitting anything or
touching any connection state.  (The wait-loop results range over the
semaphore errnos and the transmit result is not `-EFBIG`; the total is
assumed not to overflow `uint32_t`.) -/
theorem send_single_efbig (conn : Conn) (iov : List Nat) (nonblock : Bool)
    (evs : List SendWait) (ipcsize : Nat) (txBufOk : Bool) (txRes : Int)
    (hsum : iov.sum + sizeof_data_s + sizeof_u32 < u32max)
    (hevs : ∀ ev ∈ evs, ev.res = 0 ∨ ev.res = -EINTR ∨ ev.res = -ETIMEDOUT
      ∨ ev.res = -ECANCELED)
    (htx : txRes ≠ -EFBIG) :
    ((rpmsg_socket_send_single conn iov nonblock evs ipcsize txBufOk
        txRes).1 = -EFBIG
      ↔ iov.sum + sizeof_data_s + sizeof_u32 > conn.sendsize)
    ∧ (iov.sum + sizeof_data_s + sizeof_u32 > conn.sendsize →
        rpmsg_socket_send_single conn iov nonblock evs ipcsize txBufOk txRes
          = (-EFBIG, conn, none)) := by
  have hiov := get_iovlen_eq_sum iov (by omega)
  unfold rpmsg_socket_send_single
  rw [hiov]
  dsimp only
  rw [Nat.mod_eq_of_lt hsum]
  by_cases hg : iov.sum + sizeof_data_s + sizeof_u32 > conn.sendsize
  · rw [if_pos hg]
    exact ⟨⟨fun _ => hg, fun _ => rfl⟩, fun _ => rfl⟩
  · rw [if_neg hg]
    refine ⟨?_, fun hgt => (hg hgt).elim⟩
    cases hw : send_single_wait conn
        (sub32 (iov.sum + sizeof_data_s + sizeof_u32) sizeof_data_s)
        nonblock evs with
    | error e =>
        dsimp only
        have he : e ≠ -EFBIG := by
          rcases send_single_wait_error_mem _ nonblock evs conn e hw
            with h1 | h1 | h1 | ⟨ev, hmem, h1⟩
          · rw [h1]; decide
          · rw [h1]; decide
          · rw [h1]; decide
          · rcases hevs ev hmem with h2 | h2 | h2 | h2 <;>
              rw [h1, h2] <;> decide
        exact ⟨fun hres => (he hres).elim, fun hgt => (hg hgt).elim⟩
    | ok c =>
        dsimp only
        by_cases hb : txBufOk = false
        · rw [if_pos hb]
          exact ⟨fun hres => absurd (show (-EINVAL : Int) = -EFBIG from hres)
                   (by decide),
                 fun hgt => (hg hgt).elim⟩
        · rw [if_neg hb]
          by_cases ht : txRes < 0
          · rw [if_pos ht]
            exact ⟨fun hres => (htx hres).elim, fun hgt => (hg hgt).elim⟩
          · rw [if_neg ht]
            by_cases ht2 : txRes > 0
            · rw [if_pos ht2]
              refine ⟨fun hres => ?_, fun hgt => (hg hgt).elim⟩
              unfold EFBIG at hres
              omega
            · rw [if_neg ht2]
              exact ⟨fun hres => (htx hres).elim, fun hgt => (hg hgt).elim⟩

/-- Witness for C4: a 100-byte datagram against a 10-byte window is
rejected with `EFBIG` leaving the connection untouched. -/
theorem send_single_efbig_witness :
    rpmsg_socket_send_single { sampleConn with sendsize := 10 } [100] false
        [] 2048 true 1
      = (-EFBIG, { sampleConn with sendsize := 10 }, none) :=
  (send_single_efbig { sampleConn with sendsize := 10 } [100] false [] 2048
      true 1 (by decide) (by intro ev h; cases h) (by decide)).2 (by decide)

/-- The accept-queue walk of `rpmsg_socket_ns_bind`:
`for (tmp = server; tmp->next; tmp = tmp->next) if (++cnt >= backlog)
reject;` — one check per queued child, counting from 1.  Returns true
when the walk reaches the tail without rejecting. -/
def ns_bind_walk : Int → Int → List Nat → Bool
  | _, _, [] => true
  | backlog, cnt, _ :: rest =>
      if backlog ≤ cnt + 1 then false else ns_bind_walk backlog (cnt + 1) rest

/-- The tail of `rpmsg_socket_ns_bind`: under the server's recv lock,
walk the accept queue; on rejection the new child connection is
destroyed (endpoint torn down, connection freed — modelled by `none`)
and the queue left unchanged; otherwise the child is appended at the
tail. -/
def rpmsg_socket_ns_bind_enqueue (backlog : Int) (queue : List Nat)
    (c : Nat) : Option (List Nat) :=
  if ns_bind_walk backlog 0 queue then some (queue ++ [c]) else none

theorem ns_bind_walk_iff (backlog : Int) (queue : List Nat) :
    ∀ cnt, ns_bind_walk backlog cnt queue = true ↔
      (queue = [] ∨ cnt + (queue.length : Int) < backlog) := by
  induction queue with
  | nil =>
      intro cnt
      simp [ns_bind_walk]
  | cons x rest ih =>
      intro cnt
      unfold ns_bind_walk
      split
      · rename_i h
        simp only [List.length_cons]
        constructor
        · intro hf
          exact absurd hf (by simp)
        · intro hor
          rcases hor with h1 | h1
          · exact absurd h1 (by simp)
          · exfalso
            omega
      · rename_i h
        rw [ih (cnt + 1)]
        simp only [List.length_cons]
        constructor
        · intro hor
          rcases hor with h1 | h1
          · subst h1
            right
            simp
            omega
          · right
            push_cast at h1 ⊢
            omega
        · intro hor
          rcases hor with h1 | h1
          · exact absurd h1 (by simp)
          · right
            push_cast at h1 ⊢
            omega

/-- C6: in the server-side name-service bind of a listening socket
(`backlog ≥ 1`), the new child connection is appended to the accept
queue iff the queue has fewer than `backlog` entries; otherwise the
child is destroyed and the queue unchanged; hence the queue length
never exceeds `backlog`. -/
theorem ns_bind_backlog (backlog : Int) (queue : List Nat) (c : Nat)
    (hb : 1 ≤ backlog) :
    (rpmsg_socket_ns_bind_enqueue backlog queue c = some (queue ++ [c])
      ↔ (queue.length : Int) < backlog)
    ∧ (backlog ≤ (queue.length : Int) →
        rpmsg_socket_ns_bind_enqueue backlog queue c = none)
    ∧ (∀ q', rpmsg_socket_ns_bind_enqueue backlog queue c = some q' →
        (queue.length : Int) ≤ backlog → (q'.length : Int) ≤ backlog) := by
  have hwalk := ns_bind_walk_iff backlog queue 0
  by_cases hlt : (queue.length : Int) < backlog
  · have ht : ns_bind_walk backlog 0 queue = true := by
      rw [hwalk]
      exact Or.inr (by omega)
    unfold rpmsg_socket_ns_bind_enqueue
    rw [if_pos ht]
    refine ⟨⟨fun _ => hlt, fun _ => rfl⟩, fun h => absurd hlt (by omega), ?_⟩
    intro q' hq hle
    cases hq
    simp only [List.length_append, List.length_cons, List.length_nil]
    push_cast
    omega
  · have hf : ns_bind_walk backlog 0 queue = false := by
      cases hv : ns_bind_walk backlog 0 queue with
      | true =>
          rw [hwalk] at hv
          rcases hv with h1 | h1
          · subst h1
            simp at hlt
            omega
          · omega
      | false => rfl
    unfold rpmsg_socket_ns_bind_enqueue
    rw [hf]
    rw [if_neg (by simp)]
    refine ⟨⟨fun h => absurd h (by simp), fun h => absurd h hlt⟩,
            fun _ => rfl, ?_⟩
    intro q' hq hle
    exact absurd hq (by simp)

/-- Witness for C6: a queue of one entry against backlog 2 accepts the
new child. -/
theorem ns_bind_backlog_witness :
    rpmsg_socket_ns_bind_enqueue 2 [5] 9 = some ([5] ++ [9]) :=
  (ns_bind_backlog 2 [5] 9 (by decide)).1.mpr (by decide)

/-- Helper `rpmsg_socket_destroy_ept`: under the recv and send locks, if the
endpoint exists, tag a listen/accept socket's `backlog` with −1, destroy
the endpoint, post both semaphores (saturating) and notify poll
waiters. -/
def rpmsg_socket_destroy_ept (conn : Conn) : Conn :=
  if conn.eptRdev = true then
    let conn1 := if conn.backlog ≠ 0 then { conn with backlog := -1 }
                 else conn
    { conn1 with eptRdev := false,
                 sendsem := rpmsg_socket_post conn1.sendsem,
                 recvsem := rpmsg_socket_post conn1.recvsem }
  else conn

/-- What one blocked `accept` observes across a `net_sem_wait` on the
server's `recvsem`: the wait result and the server's `backlog` tag and
accept queue after the wake. -/
structure AcceptEv where
  res : Int
  backlog : Int
  queue : List Conn
deriving Repr

/-- Result of `rpmsg_socket_accept`: a popped child (tagged
`backlog = −2`) with the remaining queue, an error with the queue at
that point, or still blocked (wait oracle exhausted). -/
inductive AcceptResult where
  | ok : Conn → List Conn → AcceptResult
  | err : Int → List Conn → AcceptResult
  | pending : AcceptResult
deriving Repr

/-- The `while (1)` loop of `rpmsg_socket_accept`: pop the queue head
under the recv lock (marking it `backlog = −2`; the subsequent
device-destroy registration and SYNC wait of the child are not
modelled); if the queue is empty, `EAGAIN` for non-blocking servers,
else wait on `recvsem`, substitute `ECONNRESET` if `backlog == −1` on
wake, stop on negative results, and re-check the queue. -/
def rpmsg_socket_accept_loop (nonblock : Bool) :
    List Conn → List AcceptEv → AcceptResult
  | conn :: rest, _ => AcceptResult.ok { conn with backlog := -2 } rest
  | [], evs =>
      if nonblock then AcceptResult.err (-EAGAIN) []
      else
        match evs with
        | [] => AcceptResult.pending
        | ev :: evs1 =>
            let ret := if ev.backlog = -1 then -ECONNRESET else ev.res
            if ret < 0 then AcceptResult.err ret ev.queue
            else rpmsg_socket_accept_loop nonblock ev.queue evs1

/-- Function `rpmsg_socket_accept`: `backlog == −1` (listen socket closed) fails
with `ECONNRESET` at entry; a socket that is not listening fails with
`EINVAL`; otherwise run the pop/wait loop. -/
def rpmsg_socket_accept (server : Conn) (queue : List Conn)
    (nonblock : Bool) (evs : List AcceptEv) : AcceptResult :=
  if server.backlog = -1 then AcceptResult.err (-ECONNRESET) queue
  else if server.listening = false then AcceptResult.err (-EINVAL) queue
  else rpmsg_socket_accept_loop nonblock queue evs

/-- C7: accept on a listen-closed socket (`backlog = −1`) returns
`ECONNRESET`, both at entry and when the tag is observed on wake from
the wait on the server's recv semaphore; a socket that is not listening
returns `EINVAL`; and destroying the endpoint of a listen socket (the
close path) sets the tag to −1 and posts the recv semaphore, so each
blocked accept call wakes and returns `ECONNRESET` (once, being its
single return). -/
theorem accept_listen_closed (server : Conn) (queue : List Conn)
    (nonblock : Bool) (evs : List AcceptEv) (ev : AcceptEv) (conn : Conn) :
    (server.backlog = -1 →
      rpmsg_socket_accept server queue nonblock evs
        = AcceptResult.err (-ECONNRESET) queue)
    ∧ (server.backlog ≠ -1 → server.listening = false →
      rpmsg_socket_accept server queue nonblock evs
        = AcceptResult.err (-EINVAL) queue)
    ∧ (server.backlog ≠ -1 → server.listening = true → ev.backlog = -1 →
      rpmsg_socket_accept server [] false (ev :: evs)
        = AcceptResult.err (-ECONNRESET) ev.queue)
    ∧ (conn.eptRdev = true → conn.backlog ≠ 0 →
      (rpmsg_socket_destroy_ept conn).backlog = -1
        ∧ 1 ≤ (rpmsg_socket_destroy_ept conn).recvsem) := by
  refine ⟨?_, ?_, ?_, ?_⟩
  · intro h
    unfold rpmsg_socket_accept
    rw [if_pos h]
  · intro h hl
    unfold rpmsg_socket_accept
    rw [if_neg h, if_pos hl]
  · intro h hl hev
    unfold rpmsg_socket_accept
    rw [if_neg h]
    rw [hl]
    rw [if_neg (by simp)]
    unfold rpmsg_socket_accept_loop
    rw [if_neg (by simp)]
    dsimp only
    rw [hev]
    rw [if_pos rfl]
    rw [if_pos (by decide)]
  · intro he hb
    unfold rpmsg_socket_destroy_ept
    rw [if_pos he]
    rw [if_pos hb]
    refine ⟨rfl, ?_⟩
    show 1 ≤ rpmsg_socket_post conn.recvsem
    unfold rpmsg_socket_post
    split <;> omega

/-- Witness for C7: entry check on a closed listener, and the
destroy-endpoint path on a listening socket. -/
theorem accept_listen_closed_witness :
    rpmsg_socket_accept { sampleConn with backlog := -1 } [] true []
        = AcceptResult.err (-ECONNRESET) []
    ∧ ((rpmsg_socket_destroy_ept { sampleConn with backlog := 2 }).backlog
          = -1
        ∧ 1 ≤ (rpmsg_socket_destroy_ept
            { sampleConn with backlog := 2 }).recvsem) :=
  ⟨(accept_listen_closed { sampleConn with backlog := -1 } [] true []
      ⟨0, 0, []⟩ sampleConn).1 rfl,
   (accept_listen_closed sampleConn [] true [] ⟨0, 0, []⟩
      { sampleConn with backlog := 2 }).2.2.2 rfl (by decide)⟩

/-- Function `rpmsg_socket_getsockopt`: only `SOL_SOCKET`/`SO_PEERCRED` is
handled — the caller's `*value_len` must equal `sizeof(struct ucred)`
exactly or `EINVAL` is returned; on match the stored peer credentials
are copied out; every other option yields `ENOPROTOOPT`. -/
def rpmsg_socket_getsockopt (conn : Conn) (level option₀ valueLen : Nat) :
    Except Int Ucred :=
  if level = SOL_SOCKET ∧ option₀ = SO_PEERCRED then
    if valueLen ≠ sizeof_ucred then Except.error (-EINVAL)
    else Except.ok conn.cred
  else Except.error (-ENOPROTOOPT)

/-- C10: `getsockopt(SOL_SOCKET, SO_PEERCRED)` succeeds — copying out
the stored peer credentials — iff `*value_len` is exactly
`sizeof(struct ucred)`; any other length, larger included, is rejected
with `EINVAL`. -/
theorem getsockopt_peercred (conn : Conn) (valueLen : Nat) :
    (rpmsg_socket_getsockopt conn SOL_SOCKET SO_PEERCRED valueLen
        = Except.ok conn.cred
      ↔ valueLen = sizeof_ucred)
    ∧ (valueLen ≠ sizeof_ucred →
      rpmsg_socket_getsockopt conn SOL_SOCKET SO_PEERCRED valueLen
        = Except.error (-EINVAL)) := by
  unfold rpmsg_socket_getsockopt
  rw [if_pos ⟨rfl, rfl⟩]
  by_cases h : valueLen = sizeof_ucred
  · rw [if_neg (by omega)]
    exact ⟨⟨fun _ => h, fun _ => rfl⟩, fun hne => absurd h hne⟩
  · rw [if_pos h]
    exact ⟨⟨fun he => absurd he (by simp), fun he => absurd he h⟩,
           fun _ => rfl⟩

/-- Witness for C10: a 16-byte (larger) buffer is rejected with
`EINVAL`, and the exact 12-byte buffer returns the stored credentials. -/
theorem getsockopt_peercred_witness :
    rpmsg_socket_getsockopt sampleConn SOL_SOCKET SO_PEERCRED 16
        = Except.error (-EINVAL)
    ∧ rpmsg_socket_getsockopt sampleConn SOL_SOCKET SO_PEERCRED 12
        = Except.ok sampleConn.cred :=
  ⟨(getsockopt_peercred sampleConn 16).2 (by decide),
   (getsockopt_peercred sampleConn 12).1.mpr (by decide)⟩
